import Mathlib

/-!
Verification development for the MGA_MAP hierarchical document assembly
engine (`src/generators/mga_subsidios_generator.py` and
`src/generators/mga_subsidios_builder.py`).

The Python source is shallowly embedded: dictionaries become association
lists or structures with `Option String` fields (`none` models a missing
key), Python truthiness on strings/lists is modelled explicitly, and the
JSON extraction, stage merging, page-1 field resolution, value-chain
rendering, indicator/regionalization page assembly and focalization
grouping/merging logic are each translated into executable Lean
definitions.  Theorems about the claims of the specification follow the
definitions.
-/

/-! ## Python string helpers -/

/-- Python truthiness of an optional string value: `None` and `""` are falsy. -/
def pyTruthyStr : Option String → Bool
  | none => false
  | some s => s ≠ ""

/-- Python `a or b` for an optional string `a` with fallback `b`
(used for chains like `content.get(k) or data.get(k2) or ""`). -/
def pyOrStr (a : Option String) (b : String) : String :=
  match a with
  | none => b
  | some s => if s = "" then b else s

/-- Whitespace class of the regular-expression `\s` (ASCII part; the
unicode white-space characters that Python's `re` additionally accepts
are not modelled). -/
def isReWs (c : Char) : Bool :=
  c = ' ' || c = '\t' || c = '\n' || c = '\r' || c = '\x0b' || c = '\x0c'

/-- Drop regex whitespace from both ends of a character list (the effect of
the `\s*` groups surrounding a lazily-captured group in a pattern). -/
def trimRe (cs : List Char) : List Char :=
  ((cs.dropWhile isReWs).reverse.dropWhile isReWs).reverse

/-! ## JSON values

A model of the values produced by Python's `json.loads`.  Object keys
follow Python `dict` insertion semantics: a duplicate key keeps its first
position and takes the last value.  (`NaN`/`Infinity` literals and
`\uXXXX` surrogate pairs accepted by Python are not modelled; no claim
depends on them.) -/

inductive Json where
  | null : Json
  | bool (b : Bool) : Json
  | num (mant : Int) (scale : Nat) : Json
  | str (s : String) : Json
  | arr (xs : List Json) : Json
  | obj (kvs : List (String × Json)) : Json
  deriving Repr

/-- Insert a key/value pair with Python `dict` semantics: replace the value
at an existing key in place, otherwise append the pair at the end. -/
def dSet {V : Type} (d : List (String × V)) (k : String) (v : V) : List (String × V) :=
  match d with
  | [] => [(k, v)]
  | (k0, v0) :: rest => if k0 = k then (k0, v) :: rest else (k0, v0) :: dSet rest k v

/-- Look a key up in an association list (first match, like `dict` access). -/
def dGet {V : Type} (d : List (String × V)) (k : String) : Option V :=
  match d with
  | [] => none
  | (k0, v0) :: rest => if k0 = k then some v0 else dGet rest k

/-! ## JSON parser (model of `json.loads`) -/

/-- Whitespace skipped by the JSON grammar. -/
def isJsonWs (c : Char) : Bool :=
  c = ' ' || c = '\t' || c = '\n' || c = '\r'

/-- Skip JSON whitespace. -/
def skipWs (cs : List Char) : List Char :=
  cs.dropWhile isJsonWs

/-- Decimal digit test. -/
def isDigitCh (c : Char) : Bool :=
  '0' ≤ c && c ≤ '9'

/-- Numeric value of a list of decimal digits. -/
def digitsVal (ds : List Char) : Nat :=
  ds.foldl (fun acc c => 10 * acc + (c.toNat - 48)) 0

/-- Hexadecimal digit value, if the character is a hex digit (code points
48–57 are the digits, 97–102 and 65–70 the lower- and upper-case
letters). -/
def hexVal (c : Char) : Option Nat :=
  let n := c.toNat
  if 48 ≤ n ∧ n ≤ 57 then some (n - 48)
  else if 97 ≤ n ∧ n ≤ 102 then some (n - 87)
  else if 65 ≤ n ∧ n ≤ 70 then some (n - 55)
  else none

/-- Exact decimal value of a parsed number with `neg` sign,
integer/fraction mantissa `mant`, `fracLen` fractional digits and
decimal exponent `ex`, as a pair `(m, s)` denoting `m / 10 ^ s`
(decimals are kept exact; IEEE rounding is not modelled). -/
def decOfParts (neg : Bool) (mant : Nat) (fracLen : Nat) (ex : Int) : Int × Nat :=
  let e : Int := ex - (fracLen : Int)
  let m : Int := if neg then -(mant : Int) else (mant : Int)
  if 0 ≤ e then (m * 10 ^ e.toNat, 0) else (m, (-e).toNat)

/-- Parse the integer part of a JSON number: `0`, or a nonzero digit
followed by digits.  Returns the digits and the rest. -/
def parseIntPart (cs : List Char) : Option (List Char × List Char) :=
  match cs with
  | [] => none
  | c :: rest =>
    if c = '0' then some ([c], rest)
    else if isDigitCh c then
      some (c :: rest.takeWhile isDigitCh, rest.dropWhile isDigitCh)
    else none

/-- Parse the optional fraction part `.digits`; fails if a dot is not
followed by at least one digit. -/
def parseFracPart (cs : List Char) : Option (List Char × List Char) :=
  match cs with
  | '.' :: rest =>
    let ds := rest.takeWhile isDigitCh
    if ds = [] then none else some (ds, rest.dropWhile isDigitCh)
  | _ => some ([], cs)

/-- Parse the optional exponent part `[eE][+-]?digits`. -/
def parseExpPart (cs : List Char) : Option (Int × List Char) :=
  match cs with
  | c :: rest =>
    if c = 'e' || c = 'E' then
      match rest with
      | '+' :: rest2 =>
        let ds := rest2.takeWhile isDigitCh
        if ds = [] then none else some ((digitsVal ds : Int), rest2.dropWhile isDigitCh)
      | '-' :: rest2 =>
        let ds := rest2.takeWhile isDigitCh
        if ds = [] then none else some (-(digitsVal ds : Int), rest2.dropWhile isDigitCh)
      | _ =>
        let ds := rest.takeWhile isDigitCh
        if ds = [] then none else some ((digitsVal ds : Int), rest.dropWhile isDigitCh)
    else some (0, cs)
  | [] => some (0, cs)

/-- Parse a JSON number starting at the head of `cs`. -/
def parseNumber (cs : List Char) : Option ((Int × Nat) × List Char) :=
  let (neg, cs1) := match cs with
    | '-' :: rest => (true, rest)
    | _ => (false, cs)
  match parseIntPart cs1 with
  | none => none
  | some (ints, cs2) =>
    match parseFracPart cs2 with
    | none => none
    | some (fracs, cs3) =>
      match parseExpPart cs3 with
      | none => none
      | some (ex, cs4) =>
        some (decOfParts neg (digitsVal (ints ++ fracs)) fracs.length ex, cs4)

/-- Parse the body of a JSON string after the opening quote. -/
def parseStringBody (fuel : Nat) (cs : List Char) (acc : List Char) :
    Option (String × List Char) :=
  match fuel with
  | 0 => none
  | fuel + 1 =>
    match cs with
    | [] => none
    | '"' :: rest => some (String.mk acc.reverse, rest)
    | '\\' :: e :: rest =>
      match e with
      | '"' => parseStringBody fuel rest ('"' :: acc)
      | '\\' => parseStringBody fuel rest ('\\' :: acc)
      | '/' => parseStringBody fuel rest ('/' :: acc)
      | 'b' => parseStringBody fuel rest ('\x08' :: acc)
      | 'f' => parseStringBody fuel rest ('\x0c' :: acc)
      | 'n' => parseStringBody fuel rest ('\n' :: acc)
      | 'r' => parseStringBody fuel rest ('\r' :: acc)
      | 't' => parseStringBody fuel rest ('\t' :: acc)
      | 'u' =>
        match rest with
        | h1 :: h2 :: h3 :: h4 :: rest2 =>
          match hexVal h1, hexVal h2, hexVal h3, hexVal h4 with
          | some a, some b, some c, some d =>
            let n := ((a * 16 + b) * 16 + c) * 16 + d
            if h : n.isValidChar then
              parseStringBody fuel rest2 (Char.ofNatAux n h :: acc)
            else none
          | _, _, _, _ => none
        | _ => none
      | _ => none
    | c :: rest =>
      if c.toNat < 32 then none else parseStringBody fuel rest (c :: acc)

mutual

/-- Parse one JSON value (recursive descent, fuelled).  Leading whitespace
is skipped by the callers. -/
def parseValue (fuel : Nat) (cs : List Char) : Option (Json × List Char) :=
  match fuel with
  | 0 => none
  | fuel + 1 =>
    match cs with
    | 'n' :: 'u' :: 'l' :: 'l' :: rest => some (.null, rest)
    | 't' :: 'r' :: 'u' :: 'e' :: rest => some (.bool true, rest)
    | 'f' :: 'a' :: 'l' :: 's' :: 'e' :: rest => some (.bool false, rest)
    | '"' :: rest => (parseStringBody fuel rest []).map (fun (s, r) => (.str s, r))
    | '[' :: rest =>
      match skipWs rest with
      | ']' :: rest2 => some (.arr [], rest2)
      | rest2 => parseElems fuel rest2 []
    | '{' :: rest =>
      match skipWs rest with
      | '}' :: rest2 => some (.obj [], rest2)
      | rest2 => parseMembers fuel rest2 []
    | _ => (parseNumber cs).map (fun (q, r) => (.num q.1 q.2, r))

/-- Parse the elements of a JSON array after the opening bracket (the
head of `cs` is the start of the next element). -/
def parseElems (fuel : Nat) (cs : List Char) (acc : List Json) :
    Option (Json × List Char) :=
  match fuel with
  | 0 => none
  | fuel + 1 =>
    match parseValue fuel cs with
    | none => none
    | some (v, rest) =>
      match skipWs rest with
      | ',' :: rest2 => parseElems fuel (skipWs rest2) (v :: acc)
      | ']' :: rest2 => some (.arr (v :: acc).reverse, rest2)
      | _ => none

/-- Parse the members of a JSON object after the opening brace (the head
of `cs` is the opening quote of the next key). -/
def parseMembers (fuel : Nat) (cs : List Char) (acc : List (String × Json)) :
    Option (Json × List Char) :=
  match fuel with
  | 0 => none
  | fuel + 1 =>
    match cs with
    | '"' :: rest =>
      match parseStringBody fuel rest [] with
      | none => none
      | some (k, rest2) =>
        match skipWs rest2 with
        | ':' :: rest3 =>
          match parseValue fuel (skipWs rest3) with
          | none => none
          | some (v, rest4) =>
            match skipWs rest4 with
            | ',' :: rest5 => parseMembers fuel (skipWs rest5) (dSet acc k v)
            | '}' :: rest5 => some (.obj (dSet acc k v), rest5)
            | _ => none
        | _ => none
    | _ => none

end

/-- Model of `json.loads` on a character list: parse one value surrounded
by optional whitespace; any trailing data is an error. -/
def loadsChars (cs : List Char) : Option Json :=
  match parseValue (cs.length + 1) (skipWs cs) with
  | none => none
  | some (v, rest) => if skipWs rest = [] then some v else none

/-- Model of `json.loads` on a string. -/
def loads (s : String) : Option Json :=
  loadsChars s.data

/-! ## `MGASubsidiosGenerator._extract_json`

The generator extracts a JSON record from a noisy model response: a
direct parse first, then the regex patterns `` ```json…``` ``,
`` ```…``` `` and `{…}` in order, returning `{}` when everything
fails. -/

/-- Index of the first occurrence of `needle` in `hay`, if any
(the leftmost match position of a literal pattern in `re.search`). -/
def findSub (needle : List Char) (hay : List Char) : Option Nat :=
  if needle.isPrefixOf hay then some 0
  else
    match hay with
    | [] => none
    | _ :: t => (findSub needle t).map (· + 1)

/-- Index of the first occurrence of character `c`. -/
def firstIdx (cs : List Char) (c : Char) : Option Nat :=
  cs.findIdx? (· = c)

/-- Index of the last occurrence of character `c`. -/
def lastIdx (cs : List Char) (c : Char) : Option Nat :=
  (cs.reverse.findIdx? (· = c)).map (fun k => cs.length - 1 - k)

/-- Captured group of the first match of the pattern
`` ```json\s*([\s\S]*?)\s*``` ``: the text between the first
`` ```json `` marker and the next `` ``` `` fence, with surrounding
regex whitespace stripped. -/
def fenceJsonCandidate (cs : List Char) : Option (List Char) :=
  match findSub "```json".data cs with
  | none => none
  | some i =>
    let rest := cs.drop (i + 7)
    match findSub "```".data rest with
    | none => none
    | some j => some (trimRe (rest.take j))

/-- Captured group of the first match of the pattern
`` ```\s*([\s\S]*?)\s*``` ``: the text between the first `` ``` `` fence
and the next fence, with surrounding regex whitespace stripped. -/
def fenceCandidate (cs : List Char) : Option (List Char) :=
  match findSub "```".data cs with
  | none => none
  | some i =>
    let rest := cs.drop (i + 3)
    match findSub "```".data rest with
    | none => none
    | some j => some (trimRe (rest.take j))

/-- Whole match of the greedy pattern `\x7b[\s\S]*\x7d`: the span running
from the first opening brace to the last closing brace of the text. -/
def braceCandidate (cs : List Char) : Option (List Char) :=
  match firstIdx cs '{', lastIdx cs '}' with
  | some i, some j => if i < j then some ((cs.drop i).take (j - i + 1)) else none
  | _, _ => none

/-- The fallback extraction patterns of `_extract_json`, in source order. -/
def jsonPatterns : List (List Char → Option (List Char)) :=
  [fenceJsonCandidate, fenceCandidate, braceCandidate]

/-- The pattern loop of `_extract_json`: try each pattern; when it matches,
try to parse the captured text and on failure continue with the next
pattern. -/
def tryPatterns (ps : List (List Char → Option (List Char))) (cs : List Char) :
    Option Json :=
  match ps with
  | [] => none
  | p :: rest =>
    match p cs with
    | none => tryPatterns rest cs
    | some cand =>
      match loadsChars cand with
      | some v => some v
      | none => tryPatterns rest cs

/-- Model of `MGASubsidiosGenerator._extract_json`: parse the whole
response, else run the pattern loop, else return the empty record. -/
def extractJson (s : String) : Json :=
  match loads s with
  | some v => v
  | none => (tryPatterns jsonPatterns s.data).getD (Json.obj [])

/-- Attempt (b) of the specification: parse the first labeled fenced block. -/
def attemptJsonFence (s : String) : Option Json :=
  (fenceJsonCandidate s.data).bind loadsChars

/-- Attempt (c) of the specification: parse the first generic fenced block. -/
def attemptFence (s : String) : Option Json :=
  (fenceCandidate s.data).bind loadsChars

/-- Attempt (d) as implemented: parse the span from the first `\x7b` to the
last `\x7d`. -/
def attemptBraces (s : String) : Option Json :=
  (braceCandidate s.data).bind loadsChars

/-! ## Stage merging (`MGASubsidiosGenerator.generate_complete`)

The five per-stage records are merged with
`ai_content = \x7b**ai_content_1_5, …, **ai_content_22_24\x7d`:
successive dictionary unpacking, so each later record's pairs are
inserted over the accumulated dictionary. -/

/-- Python `\x7b**a, **b\x7d`: insert every pair of `b` into `a` in order. -/
def dMerge {V : Type} (a b : List (String × V)) : List (String × V) :=
  b.foldl (fun d kv => dSet d kv.1 kv.2) a

/-- The five-stage merge of `generate_complete`. -/
def mergeStages {V : Type} (s1 s2 s3 s4 s5 : List (String × V)) : List (String × V) :=
  dMerge (dMerge (dMerge (dMerge s1 s2) s3) s4) s5

/-! ## Page-1 identifying fields (`MGASubsidiosBuilder.build`, lines 59–76,
and `_add_page_1_datos_basicos`)

`build` takes `page1_content = ai_content.get("pagina_1_datos_basicos")`
and overlays it with the user skeleton using Python `or` chains:
`page1_content[k] = page1_content.get(k) or data.get(k2) or ""`. -/

/-- The user-supplied project skeleton (`data`), a flat key/value map;
`none` models a missing key. -/
structure SkeletonData where
  nombre_proyecto : Option String := none
  bpin : Option String := none
  identificador : Option String := none
  responsable : Option String := none
  fecha_creacion : Option String := none
  sector : Option String := none
  valor_total : Option String := none
  deriving Repr, DecidableEq

/-- The generated page-1 record (`pagina_1_datos_basicos`). -/
structure Page1Ai where
  nombre : Option String := none
  codigo_bpin : Option String := none
  identificador : Option String := none
  formulador_ciudadano : Option String := none
  formulador_oficial : Option String := none
  fecha_creacion : Option String := none
  sector : Option String := none
  deriving Repr, DecidableEq

/-- The resolved page-1 content after the overlay in `build`
(lines 64–74); `now` stands for `datetime.now().strftime(...)`. -/
structure Page1Content where
  nombre : String
  nombre_proyecto : String
  codigo_bpin : String
  identificador : String
  formulador_ciudadano : String
  formulador_oficial : String
  fecha_creacion : String
  sector : String
  deriving Repr, DecidableEq

/-- Model of the page-1 overlay in `MGASubsidiosBuilder.build`. -/
def page1Content (data : SkeletonData) (ai : Page1Ai) (now : String) : Page1Content :=
  { nombre := pyOrStr ai.nombre (pyOrStr data.nombre_proyecto "")
    nombre_proyecto := pyOrStr data.nombre_proyecto ""
    codigo_bpin := pyOrStr ai.codigo_bpin (pyOrStr data.bpin "")
    identificador := pyOrStr ai.identificador (pyOrStr data.identificador "")
    formulador_ciudadano := pyOrStr ai.formulador_ciudadano (pyOrStr data.responsable "")
    formulador_oficial := pyOrStr ai.formulador_oficial (pyOrStr data.responsable "")
    fecha_creacion := pyOrStr ai.fecha_creacion (pyOrStr data.fecha_creacion now)
    sector := if pyTruthyStr ai.sector = false ∧ pyTruthyStr data.sector then
        data.sector.getD ""
      else (ai.sector).getD "" }

/-- The identifying fields of the rendered page 1
(`_add_page_1_datos_basicos`): the letterhead title uses
`content.get("nombre_proyecto","") or content.get("nombre","")`, the
remaining fields are read straight from the resolved content. -/
structure Page1Render where
  letterheadTitle : String
  nombre : String
  codigo_bpin : String
  fecha_creacion : String
  identificador : String
  formulador_ciudadano : String
  formulador_oficial : String
  deriving Repr, DecidableEq

/-- Model of the identifying fields rendered on page 1. -/
def page1Render (data : SkeletonData) (ai : Page1Ai) (now : String) : Page1Render :=
  let c := page1Content data ai now
  { letterheadTitle := if c.nombre_proyecto = "" then c.nombre else c.nombre_proyecto
    nombre := c.nombre
    codigo_bpin := c.codigo_bpin
    fecha_creacion := c.fecha_creacion
    identificador := c.identificador
    formulador_ciudadano := c.formulador_ciudadano
    formulador_oficial := c.formulador_oficial }

/-! ## Value chain, page 14 (`MGASubsidiosBuilder._add_page_14_cadena_valor`)

The budget tree (objectives → products → activities) is rendered on
page 14.  Only the structural and cost-bearing cells are modelled; font
and styling directives are presentation and are not part of the model. -/

/-- An activity record of the generated content (`Option` fields model
dictionary keys that may be missing). -/
structure CadenaActividad where
  codigo : Option String := none
  nombre : Option String := none
  costo : Option String := none
  etapa : Option String := none
  deriving Repr, DecidableEq

/-- A product record of the generated content. -/
structure CadenaProducto where
  codigo : Option String := none
  nombre : Option String := none
  costo : Option String := none
  actividades : List CadenaActividad := []
  deriving Repr, DecidableEq

/-- An objective record of the generated content. -/
structure CadenaObjetivo where
  numero : Option String := none
  descripcion : Option String := none
  costo : Option String := none
  productos : List CadenaProducto := []
  deriving Repr, DecidableEq

/-- The slice of the merged content map read by
`_add_page_14_cadena_valor`. -/
structure CadenaContent where
  costo_total : Option String := none
  objetivos : List CadenaObjetivo := []
  productos : List CadenaProducto := []
  actividades : List CadenaActividad := []
  objetivo_general : Option String := none
  objetivo_especifico : Option CadenaObjetivo := none
  producto : Option CadenaProducto := none
  deriving Repr, DecidableEq

/-- A rendered product cell: its `Costo: $ …` line and the `Costo: $ …`
lines of the activity cell next to it. -/
structure RenderedProducto where
  costo : String
  actividades : List String
  deriving Repr, DecidableEq

/-- A rendered objective block: the cost in its subsection title and its
product rows. -/
structure RenderedObjetivo where
  costo : String
  productos : List RenderedProducto
  deriving Repr, DecidableEq

/-- The `costo_total` heading value:
`content.get('costo_total', '') or self._data.get('valor_total', '')`. -/
def cadenaCostoTotal (data : SkeletonData) (c : CadenaContent) : String :=
  pyOrStr c.costo_total (pyOrStr data.valor_total "")

/-- The effective objective list of page 14: `content["objetivos"]`, else
an objective synthesized from top-level products / `objetivo_general`,
else the single `objetivo_especifico` record. -/
def cadenaObjetivos (data : SkeletonData) (c : CadenaContent) : List CadenaObjetivo :=
  if c.objetivos ≠ [] then c.objetivos
  else if c.productos ≠ [] ∨ pyTruthyStr c.objetivo_general then
    [{ numero := some "1"
       descripcion := some ((c.objetivo_general).getD
         ((data.nombre_proyecto).getD ""))
       costo := some (cadenaCostoTotal data c)
       productos := c.productos }]
  else
    match c.objetivo_especifico with
    | some obj => [obj]
    | none => []

/-- The effective product list of one objective block: the objective's
products, else the top-level products, else the single `producto` record. -/
def cadenaProductos (c : CadenaContent) (obj : CadenaObjetivo) : List CadenaProducto :=
  if obj.productos ≠ [] then obj.productos
  else if c.productos ≠ [] then c.productos
  else
    match c.producto with
    | some p => [p]
    | none => []

/-- The effective activity list of one product row: the product's
activities, else the top-level activities. -/
def cadenaActividades (c : CadenaContent) (p : CadenaProducto) : List CadenaActividad :=
  if p.actividades ≠ [] then p.actividades else c.actividades

/-- Render one product row of the page-14 table. -/
def renderProducto (c : CadenaContent) (p : CadenaProducto) : RenderedProducto :=
  { costo := (p.costo).getD ""
    actividades := (cadenaActividades c p).map (fun a => (a.costo).getD "") }

/-- Render one objective block of page 14.  The objective cost is
`obj.get('costo', costo_total)`: the dictionary-default fallback applies
only when the key is missing. -/
def renderObjetivo (data : SkeletonData) (c : CadenaContent) (obj : CadenaObjetivo) :
    RenderedObjetivo :=
  { costo := (obj.costo).getD (cadenaCostoTotal data c)
    productos := (cadenaProductos c obj).map (renderProducto c) }

/-- Model of the page-14 rendering: the cost-bearing cells produced by
`_add_page_14_cadena_valor`, block per effective objective. -/
def page14Render (data : SkeletonData) (c : CadenaContent) : List RenderedObjetivo :=
  (cadenaObjetivos data c).map (renderObjetivo data c)

/-- All product records reachable by the fallback chain of page 14. -/
def prodPool (c : CadenaContent) : List CadenaProducto :=
  c.objetivos.flatMap (fun o => o.productos) ++ c.productos ++
    (match c.objetivo_especifico with
     | some o => o.productos
     | none => []) ++ c.producto.toList

/-- All activity records reachable by the fallback chain of page 14. -/
def actPool (c : CadenaContent) : List CadenaActividad :=
  (prodPool c).flatMap (fun p => p.actividades) ++ c.actividades

/-! ## Indicator and regionalization pages
(`MGASubsidiosBuilder._add_pages_indicadores`,
`MGASubsidiosBuilder._add_pages_regionalizacion`) -/

/-- An indicator record (`indicadores_producto` entry) as consumed by
`_add_page_indicador`; only the identifying sub-records are modelled. -/
structure IndRecord where
  objetivo_numero : Option String := none
  objetivo_descripcion : Option String := none
  producto_codigo : Option String := none
  producto_nombre : Option String := none
  indicador_codigo : Option String := none
  indicador_nombre : Option String := none
  deriving Repr, DecidableEq

/-- The placeholder indicator record inserted when no indicator content is
available (lines 1586–1590 of the builder). -/
def placeholderInd : IndRecord :=
  { objetivo_numero := some "1", objetivo_descripcion := some ""
    producto_codigo := some "1.1", producto_nombre := some ""
    indicador_codigo := some "1.1.1", indicador_nombre := some "" }

/-- A regionalization record (`regionalizacion_productos` entry). -/
structure RegRecord where
  producto : Option String := none
  departamento : Option String := none
  municipio : Option String := none
  deriving Repr, DecidableEq

/-- The slice of the merged content map driving the dynamic indicator and
regionalization pages. -/
structure AuxContent where
  indicadores_producto : List IndRecord := []
  pagina_22_indicadores_producto : Option IndRecord := none
  regionalizacion_productos : List RegRecord := []
  deriving Repr, DecidableEq

/-- Model of `_add_pages_indicadores`: one page per indicator record, with
the old single-record key as fallback and a placeholder page when no
record is available at all. -/
def indicadorPages (c : AuxContent) : List IndRecord :=
  let inds := c.indicadores_producto
  let inds := if inds = [] then
      (match c.pagina_22_indicadores_producto with
       | some old => [old]
       | none => [])
    else inds
  if inds = [] then [placeholderInd] else inds

/-- Model of `_add_pages_regionalizacion`: when the record list is empty
the method returns at once (no header, no blocks); otherwise it renders
one block per record.  `none` models the skipped section. -/
def regionalizacionSection (c : AuxContent) : Option (List RegRecord) :=
  if c.regionalizacion_productos = [] then none
  else some c.regionalizacion_productos

/-! ## Python float values and `float(str)`
(for the `try: val = float(...) except: val = 0.0` in
`_add_page_focalizacion`)

Finite values are modelled exactly as rationals; the rounding of IEEE
addition is not modelled (the claims only concern entries that
contribute the exact value `0.0`, and adding `0.0` is exact).  `inf` and
`nan` are modelled so that the success/failure boundary of `float(str)`
is faithful. -/

/-- A Python float: a finite value (an exact decimal `m / 10 ^ s`), a
signed infinity, or `nan`. -/
inductive PyFloat where
  | num (mant : Int) (scale : Nat)
  | inf (neg : Bool)
  | nan
  deriving Repr, DecidableEq

/-- Python float addition (`+=` of the subtotal accumulators), up to the
rounding of finite sums. -/
def pyAdd : PyFloat → PyFloat → PyFloat
  | .nan, _ => .nan
  | _, .nan => .nan
  | .inf s, .inf t => if s = t then .inf s else .nan
  | .inf s, .num _ _ => .inf s
  | .num _ _, .inf t => .inf t
  | .num m1 s1, .num m2 s2 =>
    .num (m1 * 10 ^ (max s1 s2 - s1) + m2 * 10 ^ (max s1 s2 - s2)) (max s1 s2)

/-- Python `str.strip()` whitespace (ASCII part). -/
def isPyWs (c : Char) : Bool :=
  c = ' ' || c = '\t' || c = '\n' || c = '\r' || c = '\x0b' || c = '\x0c'

/-- Python `str.strip()`. -/
def pyStrip (cs : List Char) : List Char :=
  ((cs.dropWhile isPyWs).reverse.dropWhile isPyWs).reverse

/-- Lower-case an ASCII letter (for the case-insensitive `inf`/`nan`
literals of `float(str)`). -/
def lowerCh (c : Char) : Char :=
  if 'A' ≤ c && c ≤ 'Z' then Char.ofNat (c.toNat + 32) else c

/-- Continue a digit run: more digits, or an underscore that must be
followed by a digit. -/
def parsePyDigitsRest (cs : List Char) : List Char × List Char :=
  match cs with
  | c :: rest =>
    if isDigitCh c then
      match parsePyDigitsRest rest with
      | (ds, rest2) => (c :: ds, rest2)
    else if c = '_' then
      match rest with
      | d :: rest2 =>
        if isDigitCh d then
          match parsePyDigitsRest rest2 with
          | (ds, rest3) => (d :: ds, rest3)
        else ([], cs)
      | [] => ([], cs)
    else ([], cs)
  | [] => ([], [])

/-- Parse a run of decimal digits possibly separated by single
underscores between digits (Python numeric literals).  Returns the
digits and the rest, requiring at least one digit. -/
def parsePyDigits (cs : List Char) : Option (List Char × List Char) :=
  match cs with
  | c :: rest =>
    if isDigitCh c then
      match parsePyDigitsRest rest with
      | (ds, rest2) => some (c :: ds, rest2)
    else none
  | [] => none

/-- Parse the optional exponent of `float(str)`. -/
def parsePyExp (cs : List Char) : Option (Int × List Char) :=
  match cs with
  | c :: rest =>
    if lowerCh c = 'e' then
      match rest with
      | '+' :: rest2 =>
        (parsePyDigits rest2).map (fun (ds, r) => ((digitsVal ds : Int), r))
      | '-' :: rest2 =>
        (parsePyDigits rest2).map (fun (ds, r) => (-(digitsVal ds : Int), r))
      | _ =>
        (parsePyDigits rest).map (fun (ds, r) => ((digitsVal ds : Int), r))
    else some (0, cs)
  | [] => some (0, cs)

/-- Parse the unsigned numeric body of `float(str)`:
`digits [. [digits]] [exp]` or `. digits [exp]`. -/
def parsePyBody (cs : List Char) : Option ((Int × Nat) × List Char) :=
  match parsePyDigits cs with
  | some (ints, rest) =>
    match rest with
    | '.' :: rest2 =>
      match parsePyDigits rest2 with
      | some (fracs, rest3) =>
        (parsePyExp rest3).map (fun (ex, rest4) =>
          (decOfParts false (digitsVal (ints ++ fracs)) fracs.length ex, rest4))
      | none =>
        (parsePyExp rest2).map (fun (ex, rest4) =>
          (decOfParts false (digitsVal ints) 0 ex, rest4))
    | _ =>
      (parsePyExp rest).map (fun (ex, rest4) =>
        (decOfParts false (digitsVal ints) 0 ex, rest4))
  | none =>
    match cs with
    | '.' :: rest2 =>
      match parsePyDigits rest2 with
      | some (fracs, rest3) =>
        (parsePyExp rest3).map (fun (ex, rest4) =>
          (decOfParts false (digitsVal fracs) fracs.length ex, rest4))
      | none => none
    | _ => none

/-- Model of Python `float(str)`: strip whitespace, optional sign, then a
numeric body or one of the case-insensitive literals `inf`, `infinity`,
`nan`.  Returns `none` exactly when `float` raises `ValueError`.
(Overflow of huge finite literals to `inf` is not modelled.) -/
def pyFloat (s : String) : Option PyFloat :=
  let cs := pyStrip s.data
  let (neg, cs1) := match cs with
    | '-' :: rest => (true, rest)
    | '+' :: rest => (false, rest)
    | _ => (false, cs)
  match (cs1.map lowerCh) with
  | ['i', 'n', 'f'] => some (.inf neg)
  | ['i', 'n', 'f', 'i', 'n', 'i', 't', 'y'] => some (.inf neg)
  | ['n', 'a', 'n'] => some .nan
  | _ =>
    match parsePyBody cs1 with
    | some (q, []) => some (if neg then .num (-q.1) q.2 else .num q.1 q.2)
    | _ => none

/-! ## Focalization page (`MGASubsidiosBuilder._add_page_focalizacion`
and `_merge_vertically`) -/

/-- A focalization entry of the generated content. -/
structure FocEntry where
  politica : Option String := none
  categoria : Option String := none
  subcategoria : Option String := none
  valor : Option String := none
  deriving Repr, DecidableEq

/-- The grouping key `item.get("politica", "General")`. -/
def polKey (e : FocEntry) : String :=
  (e.politica).getD "General"

/-- The grouping key `item.get("categoria", "General")`. -/
def catKey (e : FocEntry) : String :=
  (e.categoria).getD "General"

/-- The numeric transformation applied to `item.get("valor", "0")`:
remove dots, turn commas into dots, remove dollar signs, strip. -/
def focTransform (s : String) : String :=
  String.mk (pyStrip (((s.data.filter (· ≠ '.')).map
    (fun c => if c = ',' then '.' else c)).filter (· ≠ '$')))

/-- The parsed value of one entry, `none` when `float` would raise. -/
def focParse (e : FocEntry) : Option PyFloat :=
  pyFloat (focTransform ((e.valor).getD "0"))

/-- The contribution of one entry to its subtotals: the parsed value, or
`0.0` under the bare `except`. -/
def focVal (e : FocEntry) : PyFloat :=
  (focParse e).getD (.num 0 0)

/-- The `cat_total_val` accumulator over one category bucket. -/
def catTotalVal (items : List FocEntry) : PyFloat :=
  items.foldl (fun acc e => pyAdd acc (focVal e)) (.num 0 0)

/-- The `policy_total_val` accumulator over the category buckets of one
policy, accumulating each `cat_total_val` in bucket order. -/
def polTotalVal (cats : List (String × List FocEntry)) : PyFloat :=
  cats.foldl (fun acc kv => pyAdd acc (catTotalVal kv.2)) (.num 0 0)

/-- Append an entry to its category bucket inside one policy group
(creating the bucket at the end on first sight), mirroring insertion
into the nested Python dictionaries. -/
def addToCats (cats : List (String × List FocEntry)) (cat : String) (e : FocEntry) :
    List (String × List FocEntry) :=
  match cats with
  | [] => [(cat, [e])]
  | (c0, items) :: rest =>
    if c0 = cat then (c0, items ++ [e]) :: rest
    else (c0, items) :: addToCats rest cat e

/-- Append an entry to its policy group (creating the group at the end on
first sight). -/
def addToPols (gd : List (String × List (String × List FocEntry)))
    (pol cat : String) (e : FocEntry) :
    List (String × List (String × List FocEntry)) :=
  match gd with
  | [] => [(pol, [(cat, [e])])]
  | (p0, cats) :: rest =>
    if p0 = pol then (p0, addToCats cats cat e) :: rest
    else (p0, cats) :: addToPols rest pol cat e

/-- The `grouped_data` dictionary: policies in first-seen order, categories
in first-seen order within each policy, entries in input order within
each bucket. -/
def groupEntries (entries : List FocEntry) :
    List (String × List (String × List FocEntry)) :=
  entries.foldl (fun gd e => addToPols gd (polKey e) (catKey e) e) []

/-- Row kinds of `rows_to_render`. -/
inductive RowType where
  | item
  | totalCat
  | totalPol
  deriving Repr, DecidableEq

/-- The Python value placed in the `Valor` column before formatting: the
raw string of an item row, or the numeric subtotal of a total row (the
currency formatting of subtotals is presentation and is not modelled). -/
inductive PyVal where
  | s (v : String)
  | f (v : PyFloat)
  deriving Repr, DecidableEq

/-- One entry of `rows_to_render`. -/
structure Row where
  rtype : RowType
  policy : String
  category : String
  subcategory : String
  value : PyVal
  deriving Repr, DecidableEq

/-- An item row of the focalization table. -/
def itemRow (pol cat : String) (e : FocEntry) : Row :=
  { rtype := .item, policy := pol, category := cat
    subcategory := (e.subcategoria).getD ""
    value := .s ((e.valor).getD "") }

/-- The synthetic `Total Categoría` row closing one category bucket. -/
def catTotalRow (pol cat : String) (items : List FocEntry) : Row :=
  { rtype := .totalCat, policy := pol, category := cat
    subcategory := "Total Categoría"
    value := .f (catTotalVal items) }

/-- The synthetic `TOTAL POLITICA TRANSVERSAL` row closing one policy
group. -/
def polTotalRow (pol : String) (cats : List (String × List FocEntry)) : Row :=
  { rtype := .totalPol, policy := pol
    category := "TOTAL POLITICA TRANSVERSAL", subcategory := ""
    value := .f (polTotalVal cats) }

/-- The rows of one category bucket: its items followed by the category
total. -/
def catBlock (pol : String) (kv : String × List FocEntry) : List Row :=
  kv.2.map (itemRow pol kv.1) ++ [catTotalRow pol kv.1 kv.2]

/-- The rows of one policy group: its category blocks followed by the
policy total. -/
def polBlock (kv : String × List (String × List FocEntry)) : List Row :=
  kv.2.flatMap (catBlock kv.1) ++ [polTotalRow kv.1 kv.2]

/-- The full `rows_to_render` list built by `_add_page_focalizacion`. -/
def rowsToRender (entries : List FocEntry) : List Row :=
  (groupEntries entries).flatMap polBlock

/-- The entry list actually grouped by `_add_page_focalizacion`: the
`focalizacion` content with the single empty placeholder substituted
when it is missing or empty. -/
def focEntriesEffective (entries : List FocEntry) : List FocEntry :=
  if entries = [] then
    [{ politica := some "", categoria := some "", subcategoria := some ""
       valor := some "0" }]
  else entries

/-! ### Vertical merge marks

`_merge_vertically(table, col, start, stop)` sets `vMerge=restart` on
table row `start` and `vMerge=continue` on table rows `start+1 … stop-1`
of the column, doing nothing when `stop ≤ start`.  Table row `i + 1`
holds ledger row `i` (row 0 is the header). -/

/-- A vertical-merge mark. -/
inductive Mark where
  | restart
  | cont
  deriving Repr, DecidableEq

/-- The marks produced by one `_merge_vertically` call, keyed by table row
index. -/
def mergeMarks (start stop : Nat) : List (Nat × Mark) :=
  if stop ≤ start then []
  else (start, Mark.restart) ::
    (List.range (stop - start - 1)).map (fun k => (start + 1 + k, Mark.cont))

/-- The policy-column scan: on each policy change emit
`(start_idx + 1, i)` and reset, and emit
`(start_idx + 1, rows.length)` for the final block. -/
def policySpansGo (rows : List Row) (i : Nat) (cur : String) (start : Nat) :
    List (Nat × Nat) :=
  match rows with
  | [] => [(start + 1, i)]
  | r :: rest =>
    if r.policy ≠ cur then (start + 1, i) :: policySpansGo rest (i + 1) r.policy i
    else policySpansGo rest (i + 1) cur start

/-- The `_merge_vertically` calls made for the policy column (column 0). -/
def policySpans (rows : List Row) : List (Nat × Nat) :=
  match rows with
  | [] => []
  | r0 :: rest => policySpansGo rest 1 r0.policy 0

/-- The category-column scan: a span breaks when the policy changes, the
category changes or the row is a policy total; a merge call is emitted
only for spans longer than one row, and the final block is merged only
when the last row is not a policy total. -/
def categorySpansGo (rows : List Row) (lastTy : RowType) (i : Nat)
    (curCat curPol : String) (start : Nat) : List (Nat × Nat) :=
  match rows with
  | [] =>
    if i - start > 1 ∧ lastTy ≠ RowType.totalPol then [(start + 1, i)] else []
  | r :: rest =>
    if r.policy ≠ curPol ∨ r.category ≠ curCat ∨ r.rtype = RowType.totalPol then
      (if i - start > 1 then [(start + 1, i)] else []) ++
        categorySpansGo rest lastTy (i + 1) r.category r.policy i
    else categorySpansGo rest lastTy (i + 1) curCat curPol start

/-- The `_merge_vertically` calls made for the category column (column 1). -/
def categorySpans (rows : List Row) : List (Nat × Nat) :=
  match rows with
  | [] => []
  | r0 :: rest =>
    categorySpansGo rest ((rows.getLast?.map Row.rtype).getD r0.rtype) 1
      r0.category r0.policy 0

/-- All marks placed on the policy column. -/
def policyMarks (rows : List Row) : List (Nat × Mark) :=
  (policySpans rows).flatMap (fun se => mergeMarks se.1 se.2)

/-- All marks placed on the category column. -/
def categoryMarks (rows : List Row) : List (Nat × Mark) :=
  (categorySpans rows).flatMap (fun se => mergeMarks se.1 se.2)

/-! ## Document assembly (`MGASubsidiosBuilder.build`)

`build` renders every page in a fixed order and always reaches
`_save_document`; the model collects the dynamic sections relevant to
the claims. -/

/-- The merged content map slices consumed by the modelled pages. -/
structure MgaContent where
  pagina_1_datos_basicos : Page1Ai := {}
  cadena : CadenaContent := {}
  aux : AuxContent := {}
  focalizacion : List FocEntry := []
  deriving Repr, DecidableEq

/-- The assembled document restricted to the modelled sections.  `build`
is total: it never raises on missing auxiliary records. -/
structure MgaDocument where
  page1 : Page1Render
  page14 : List RenderedObjetivo
  indicadores : List IndRecord
  regionalizacion : Option (List RegRecord)
  focalizacionRows : List Row
  deriving Repr, DecidableEq

/-- Model of `MGASubsidiosBuilder.build`. -/
def buildDoc (data : SkeletonData) (c : MgaContent) (now : String) : MgaDocument :=
  { page1 := page1Render data c.pagina_1_datos_basicos now
    page14 := page14Render data c.cadena
    indicadores := indicadorPages c.aux
    regionalizacion := regionalizacionSection c.aux
    focalizacionRows := rowsToRender (focEntriesEffective c.focalizacion) }

/-! ## Specification-side helpers and observation functions -/

/-- First-success choice on options (the "first attempt that parses"
combinator used to state the extraction order). -/
def oOr {α : Type} (a b : Option α) : Option α :=
  match a with
  | some v => some v
  | none => b

/-- Whether a JSON value is an object (a "well-formed record" in the
specification's sense). -/
def Json.isObj : Json → Bool
  | .obj _ => true
  | _ => false

/-- The bucket of one category inside a category dictionary. -/
def catLookupItems (cats : List (String × List FocEntry)) (c : String) :
    List FocEntry :=
  match cats with
  | [] => []
  | (c0, items) :: rest => if c0 = c then items else catLookupItems rest c

/-- The item bucket of one (policy, category) pair in `grouped_data`. -/
def itemsIn (gd : List (String × List (String × List FocEntry)))
    (p c : String) : List FocEntry :=
  match gd with
  | [] => []
  | (p0, cats) :: rest => if p0 = p then catLookupItems cats c else itemsIn rest p c

/-- Adjacency contract of `rows_to_render`: a category-total row directly
follows an item row of its own (policy, category) bucket, and a
policy-total row directly follows a category-total row of its own
policy. -/
def rowPairOk (prev cur : Row) : Prop :=
  match cur.rtype with
  | .item => True
  | .totalCat =>
    prev.rtype = RowType.item ∧ prev.policy = cur.policy ∧
      prev.category = cur.category
  | .totalPol => prev.rtype = RowType.totalCat ∧ prev.policy = cur.policy

/-- Keys of the grouped dictionary are unique at both levels (Python
dictionaries cannot hold duplicate keys). -/
def groupedNodup (gd : List (String × List (String × List FocEntry)))
    : Prop :=
  (gd.map Prod.fst).Nodup ∧ ∀ kv ∈ gd, ((kv.2.map Prod.fst).Nodup)

/-- Every bucket of the grouped dictionary is nonempty (a key is created
only when an entry arrives). -/
def groupedNonempty (gd : List (String × List (String × List FocEntry)))
    : Prop :=
  ∀ kv ∈ gd, kv.2 ≠ [] ∧ ∀ ckv ∈ kv.2, ckv.2 ≠ []

/-- Sum of rendered cost strings under Python float coercion (used to
state that rendered budget levels do or do not close). -/
def sumPyF (l : List String) : PyFloat :=
  l.foldl (fun acc s => pyAdd acc ((pyFloat s).getD .nan)) (.num 0 0)

/-! ## Concrete test vectors for the claims -/

/-- A skeleton whose declared total is 60 (minor units). -/
def c1data : SkeletonData :=
  { nombre_proyecto := some "Proyecto", valor_total := some "60" }

/-- Page-14 content whose product costs 60 but whose activities sum
to 59: an input violating invariant I1. -/
def c1cadena : CadenaContent :=
  { costo_total := some "60"
    objetivos := [{ numero := some "1", descripcion := some "obj"
                    costo := some "60"
                    productos := [{ codigo := some "1.1", nombre := some "P1"
                                    costo := some "60"
                                    actividades :=
                                      [{ codigo := some "1.1.1", costo := some "30" },
                                       { codigo := some "1.1.2", costo := some "29" }] }] }] }

/-- Content for claim C3: one product on page 14, but no indicator and no
regionalization records at all. -/
def c3content : MgaContent :=
  { cadena := { costo_total := some "10"
                objetivos := [{ numero := some "1", costo := some "10"
                                productos := [{ codigo := some "1.1"
                                                costo := some "10" }] }] } }

/-- Content for claim C4: two products on page 14 but a single indicator
record. -/
def c4content : MgaContent :=
  { cadena := { costo_total := some "10"
                objetivos := [{ numero := some "1", costo := some "10"
                                productos := [{ codigo := some "1.1", costo := some "4" },
                                              { codigo := some "1.2", costo := some "6" }] }] }
    aux := { indicadores_producto := [{ producto_codigo := some "1.1" }] } }

/-- Interleaved focalization entries: policy A, then B, then A again. -/
def c8entries : List FocEntry :=
  [{ politica := some "A", categoria := some "X", subcategoria := some "s1", valor := some "1" },
   { politica := some "B", categoria := some "X", subcategoria := some "s2", valor := some "1" },
   { politica := some "A", categoria := some "X", subcategoria := some "s3", valor := some "1" }]

/-- The ledger of property P4: rows (A,1), (A,1), (A,2), (B,1). -/
def c9rows : List Row :=
  [itemRow "A" "1" { subcategoria := some "r0" },
   itemRow "A" "1" { subcategoria := some "r1" },
   itemRow "A" "2" { subcategoria := some "r2" },
   itemRow "B" "1" { subcategoria := some "r3" }]

/-- Blank generated page-1 record: the generated content supplies no
non-empty value for any page-1 identifying key. -/
def page1AiBlank (ai : Page1Ai) : Prop :=
  pyTruthyStr ai.nombre = false ∧ pyTruthyStr ai.codigo_bpin = false ∧
    pyTruthyStr ai.identificador = false ∧
    pyTruthyStr ai.formulador_ciudadano = false ∧
    pyTruthyStr ai.formulador_oficial = false ∧
    pyTruthyStr ai.fecha_creacion = false

/-- Boolean test for an item row of one (policy, category) group. -/
def isItemOf (p c : String) (r : Row) : Bool :=
  r.rtype == RowType.item && r.policy == p && r.category == c

/-- An entry with an unparsable value, between parsable neighbours. -/
def egoodEntry : FocEntry :=
  { politica := some "A", categoria := some "X", valor := some "5" }

/-- An entry whose value string fails `float` parsing. -/
def ebadEntry : FocEntry :=
  { politica := some "A", categoria := some "X", valor := some "garbage" }

/-- A second content for claim C4 that differs from `c4content` only in
budget-tree products. -/
def c4contentB : MgaContent :=
  { c4content with
    cadena := { costo_total := some "10"
                objetivos := [{ numero := some "1", costo := some "10"
                                productos := [{ codigo := some "1.1", costo := some "10" }] }] } }

/-! # Theorems -/

/-! ## Association-list and merge lemmas -/

theorem dGet_dSet {V : Type} (d : List (String × V)) (k : String) (v : V)
    (k' : String) :
    dGet (dSet d k v) k' = if k' = k then some v else dGet d k' := by
  induction d with
  | nil =>
    by_cases h : k' = k
    · subst h; simp [dSet, dGet]
    · simp only [dSet, dGet]
      rw [if_neg (fun hh : k = k' => h hh.symm), if_neg h]
  | cons kv rest ih =>
    obtain ⟨k0, v0⟩ := kv
    by_cases h0 : k0 = k
    · subst h0
      by_cases h : k' = k0
      · subst h; simp [dSet, dGet]
      · simp only [dSet, dGet, if_pos rfl]
        rw [if_neg (fun hh : k0 = k' => h hh.symm), if_neg h,
          if_neg (fun hh : k0 = k' => h hh.symm)]
    · by_cases h : k0 = k'
      · subst h
        simp only [dSet, dGet, if_neg h0, if_pos rfl]
        simp
      · simp only [dSet, dGet, if_neg h0, if_neg h]
        exact ih

theorem dGet_eq_none_of_not_mem {V : Type} (d : List (String × V)) (k : String)
    (h : k ∉ d.map Prod.fst) : dGet d k = none := by
  induction d with
  | nil => rfl
  | cons kv rest ih =>
    obtain ⟨k0, v0⟩ := kv
    simp only [List.map_cons, List.mem_cons] at h
    push_neg at h
    simp only [dGet]
    rw [if_neg (fun hh : k0 = k => h.1 hh.symm)]
    exact ih h.2

theorem dGet_dMerge {V : Type} (a b : List (String × V))
    (hb : (b.map Prod.fst).Nodup) (k : String) :
    dGet (dMerge a b) k = oOr (dGet b k) (dGet a k) := by
  induction b generalizing a with
  | nil => simp [dMerge, dGet, oOr]
  | cons kv rest ih =>
    obtain ⟨k0, v0⟩ := kv
    simp only [List.map_cons, List.nodup_cons] at hb
    have step : dMerge a ((k0, v0) :: rest) = dMerge (dSet a k0 v0) rest := rfl
    rw [step, ih _ hb.2, dGet_dSet]
    by_cases hk : k = k0
    · subst hk
      rw [dGet_eq_none_of_not_mem _ _ hb.1]
      simp [dGet, oOr]
    · have hk0 : ¬ k0 = k := fun hh => hk hh.symm
      simp only [dGet, if_neg hk0, if_neg hk]

/-- CLAIM C2 (counterexample).  Merging the stage record `{x: 1}` with the
later record `{x: 2, y: 3}` yields `{x: 2, y: 3}` — the later stage
overwrites `x`, so the merged map does not equal the `{x: 1, y: 3}`
required by the claim. -/
theorem c2_counterexample :
    dMerge [("x", (1 : Nat))] [("x", 2), ("y", 3)] = [("x", 2), ("y", 3)] ∧
    dGet (dMerge [("x", (1 : Nat))] [("x", 2), ("y", 3)]) "x" ≠ some 1 ∧
    dMerge [("x", (1 : Nat))] [("x", 2), ("y", 3)] ≠ [("x", 1), ("y", 3)] := by
  refine ⟨by decide, by decide, by decide⟩

/-- CLAIM C2 (amended).  Folding the five per-stage records with
`{**s1, **s2, **s3, **s4, **s5}` gives later stages precedence: a key is
looked up in the latest stage that populates it, falling back through
earlier stages. -/
theorem c2_later_stage_wins {V : Type} (s1 s2 s3 s4 s5 : List (String × V))
    (h2 : (s2.map Prod.fst).Nodup) (h3 : (s3.map Prod.fst).Nodup)
    (h4 : (s4.map Prod.fst).Nodup) (h5 : (s5.map Prod.fst).Nodup)
    (k : String) :
    dGet (mergeStages s1 s2 s3 s4 s5) k =
      oOr (dGet s5 k) (oOr (dGet s4 k) (oOr (dGet s3 k)
        (oOr (dGet s2 k) (dGet s1 k)))) := by
  unfold mergeStages
  rw [dGet_dMerge _ _ h5, dGet_dMerge _ _ h4, dGet_dMerge _ _ h3,
    dGet_dMerge _ _ h2]

/-- CLAIM C2 (witness).  The amended precedence rule evaluated on the
claim's own example: the later stage's value wins on `x`. -/
theorem c2_later_stage_wins_witness :
    dGet (mergeStages [("x", (1 : Nat))] [("x", 2), ("y", 3)] [] [] []) "x" =
      oOr (dGet ([] : List (String × Nat)) "x")
        (oOr (dGet ([] : List (String × Nat)) "x")
          (oOr (dGet ([] : List (String × Nat)) "x")
            (oOr (dGet [("x", 2), ("y", 3)] "x") (dGet [("x", (1 : Nat))] "x")))) :=
  c2_later_stage_wins [("x", 1)] [("x", 2), ("y", 3)] [] [] []
    (by decide) (by decide) (by decide) (by decide) "x"

/-! ## Extraction-order lemmas -/

theorem oOr_none {α : Type} (a : Option α) : oOr a none = a := by
  cases a <;> rfl

theorem tryPatterns_cons (p : List Char → Option (List Char))
    (ps : List (List Char → Option (List Char))) (cs : List Char) :
    tryPatterns (p :: ps) cs = oOr ((p cs).bind loadsChars) (tryPatterns ps cs) := by
  cases h : p cs with
  | none => simp [tryPatterns, h, oOr]
  | some cand =>
    cases h2 : loadsChars cand <;> simp [tryPatterns, h, h2, oOr]

theorem extractJson_eq_chain (s : String) :
    extractJson s =
      (oOr (loads s) (oOr (attemptJsonFence s)
        (oOr (attemptFence s) (attemptBraces s)))).getD (Json.obj []) := by
  unfold extractJson attemptJsonFence attemptFence attemptBraces jsonPatterns
  cases h : loads s with
  | some v => simp [oOr]
  | none =>
    simp only [oOr]
    rw [tryPatterns_cons, tryPatterns_cons, tryPatterns_cons]
    simp only [tryPatterns, oOr_none]
    rfl

/-- CLAIM C6 (counterexample).  On the input
`junk {"a": 1} mid {"b": 2}` the first brace-delimited span `{"a": 1}`
parses successfully (so the claimed attempt (d) would return it), yet
`_extract_json` returns the empty record: its brace pattern greedily
spans from the first `{` to the last `}`, which does not parse. -/
theorem c6_counterexample :
    extractJson "junk \x7b\"a\": 1\x7d mid \x7b\"b\": 2\x7d" = Json.obj [] ∧
    loads "\x7b\"a\": 1\x7d" = some (Json.obj [("a", Json.num 1 0)]) ∧
    Json.obj ([] : List (String × Json)) ≠ Json.obj [("a", Json.num 1 0)] := by
  refine ⟨by rfl, by rfl, ?_⟩
  simp

/-- CLAIM C6 (amended).  `_extract_json` attempts, in order: (a) a direct
parse of the whole text; (b) a parse of the first fenced block labeled
`json`; (c) a parse of the first generic fenced block; (d) a parse of
the span from the first opening brace to the last closing brace; it
returns the first attempt that parses as any JSON value, and the empty
record when all fail. -/
theorem c6_extraction_order (s : String) :
    extractJson s =
      (oOr (loads s) (oOr (attemptJsonFence s)
        (oOr (attemptFence s) (attemptBraces s)))).getD (Json.obj []) :=
  extractJson_eq_chain s

/-- CLAIM C7 (counterexample).  On input `"7"` the first attempt parses
the non-record JSON value `7`, which `_extract_json` returns as is:
the result is neither a well-formed record nor a distinct `ParseError`
value. -/
theorem c7_counterexample :
    extractJson "7" = Json.num 7 0 ∧ (extractJson "7").isObj = false :=
  ⟨by rfl, by rfl⟩

/-- CLAIM C7 (amended).  `_extract_json` never throws — it is a total
function — and when all four parse attempts fail it returns the empty
record `{}` (not a distinct `ParseError` value, and indistinguishable
from a successfully parsed empty object). -/
theorem c7_failure_returns_empty_record (s : String)
    (h1 : loads s = none) (h2 : attemptJsonFence s = none)
    (h3 : attemptFence s = none) (h4 : attemptBraces s = none) :
    extractJson s = Json.obj [] := by
  rw [extractJson_eq_chain, h1, h2, h3, h4]
  rfl

/-- CLAIM C7 (witness).  All four attempts fail on plain prose and the
extractor returns the empty record. -/
theorem c7_failure_returns_empty_record_witness :
    extractJson "no json here" = Json.obj [] :=
  c7_failure_returns_empty_record "no json here" rfl rfl rfl rfl

/-! ## Page-1 provenance -/

theorem pyOrStr_of_falsy (a : Option String) (b : String)
    (h : pyTruthyStr a = false) : pyOrStr a b = b := by
  cases a with
  | none => rfl
  | some s =>
    simp only [pyTruthyStr, ne_eq, decide_eq_false_iff_not, not_not] at h
    simp [pyOrStr, h]

/-- CLAIM C5 (counterexample).  Two runs with the same user skeleton but
different generated page-1 records render different BPIN codes: the
generated value wins when it is non-empty, so the page-1 identifying
fields do not always come from the skeleton. -/
theorem c5_counterexample :
    (page1Render { nombre_proyecto := some "P", bpin := some "B-1" } {} "t").codigo_bpin
      = "B-1" ∧
    (page1Render { nombre_proyecto := some "P", bpin := some "B-1" }
      { codigo_bpin := some "B-X" } "t").codigo_bpin = "B-X" ∧
    page1Render { nombre_proyecto := some "P", bpin := some "B-1" } {} "t" ≠
      page1Render { nombre_proyecto := some "P", bpin := some "B-1" }
        { codigo_bpin := some "B-X" } "t" := by
  refine ⟨by rfl, by rfl, by decide⟩

/-- CLAIM C5 (amended).  The page-1 identifying fields come from the user
skeleton whenever the generated page-1 record supplies no non-empty
value for them (a non-empty generated value overrides the skeleton); the
`nombre_proyecto` field itself always comes from the skeleton.  In
particular two runs whose generated records are both blank on the
identifying keys render identical page-1 fields. -/
theorem c5_skeleton_when_ai_blank (data : SkeletonData) (ai ai' : Page1Ai)
    (now : String) (h : page1AiBlank ai) (h' : page1AiBlank ai') :
    page1Render data ai now = page1Render data ai' now ∧
    (∀ ai2 : Page1Ai, (page1Content data ai2 now).nombre_proyecto =
      pyOrStr data.nombre_proyecto "") := by
  obtain ⟨h1, h2, h3, h4, h5, h6⟩ := h
  obtain ⟨g1, g2, g3, g4, g5, g6⟩ := h'
  constructor
  · unfold page1Render page1Content
    simp only [pyOrStr_of_falsy _ _ h1, pyOrStr_of_falsy _ _ h2,
      pyOrStr_of_falsy _ _ h3, pyOrStr_of_falsy _ _ h4,
      pyOrStr_of_falsy _ _ h5, pyOrStr_of_falsy _ _ h6,
      pyOrStr_of_falsy _ _ g1, pyOrStr_of_falsy _ _ g2,
      pyOrStr_of_falsy _ _ g3, pyOrStr_of_falsy _ _ g4,
      pyOrStr_of_falsy _ _ g5, pyOrStr_of_falsy _ _ g6]
  · intro ai2
    rfl

/-- CLAIM C5 (witness).  Two blank-but-different generated records render
the same page 1 from the same skeleton. -/
theorem c5_skeleton_when_ai_blank_witness :
    page1Render { nombre_proyecto := some "P", bpin := some "B-1" } {} "t" =
      page1Render { nombre_proyecto := some "P", bpin := some "B-1" }
        { nombre := some "", codigo_bpin := some "" } "t" ∧
    (∀ ai2 : Page1Ai,
      (page1Content { nombre_proyecto := some "P", bpin := some "B-1" } ai2 "t").nombre_proyecto =
        pyOrStr (some "P") "") :=
  c5_skeleton_when_ai_blank { nombre_proyecto := some "P", bpin := some "B-1" }
    {} { nombre := some "", codigo_bpin := some "" } "t"
    (by constructor <;> simp [pyTruthyStr])
    (by refine ⟨by rfl, by rfl, by rfl, by rfl, by rfl, by rfl⟩)

/-! ## Indicator and regionalization assembly -/

/-- CLAIM C3 (counterexample).  Content with one product but no indicator
and no regionalization records: `build` still produces the document —
the regionalization section is silently skipped (`none`) and a single
placeholder indicator page is rendered — instead of failing the
document-assembly step. -/
theorem c3_counterexample :
    ((buildDoc {} c3content "t").page14.flatMap (fun o => o.productos)).length = 1 ∧
    (buildDoc {} c3content "t").regionalizacion = none ∧
    (buildDoc {} c3content "t").indicadores = [placeholderInd] := by
  refine ⟨by rfl, by rfl, by rfl⟩

/-- CLAIM C3 (amended).  A product missing its paired records never fails
document assembly: with no indicator records at all, exactly one
placeholder indicator page is rendered; with no regionalization records,
the regionalization section is skipped entirely and the rest of the
document is still produced. -/
theorem c3_missing_pairs_never_fail (data : SkeletonData) (c : MgaContent)
    (now : String) (hInd : c.aux.indicadores_producto = [])
    (hOld : c.aux.pagina_22_indicadores_producto = none)
    (hReg : c.aux.regionalizacion_productos = []) :
    (buildDoc data c now).indicadores = [placeholderInd] ∧
    (buildDoc data c now).regionalizacion = none := by
  unfold buildDoc indicadorPages regionalizacionSection
  simp [hInd, hOld, hReg]

/-- CLAIM C3 (witness).  The amended behaviour on concrete content with a
product and no auxiliary records. -/
theorem c3_missing_pairs_never_fail_witness :
    (buildDoc {} c3content "t").indicadores = [placeholderInd] ∧
    (buildDoc {} c3content "t").regionalizacion = none :=
  c3_missing_pairs_never_fail {} c3content "t" rfl rfl rfl

/-- CLAIM C4 (counterexample).  A budget tree with two products but one
indicator record yields exactly one indicator page, not two: no
placeholder is synthesized for the unmatched product. -/
theorem c4_counterexample :
    (buildDoc {} c4content "t").indicadores.length = 1 ∧
    ((buildDoc {} c4content "t").page14.flatMap (fun o => o.productos)).length = 2 ∧
    (1 : Nat) ≠ 2 := by
  refine ⟨by rfl, by rfl, by decide⟩

/-- CLAIM C4 (amended).  The rendered indicator pages and regionalization
blocks are determined by the auxiliary record lists alone — the product
count plays no role — and the number of indicator pages is the number of
indicator records, with a single placeholder page when there are none
(`max n 1`). -/
theorem c4_counts_follow_records (data : SkeletonData) (c c' : MgaContent)
    (now : String)
    (hi : c.aux.indicadores_producto = c'.aux.indicadores_producto)
    (ho : c.aux.pagina_22_indicadores_producto = c'.aux.pagina_22_indicadores_producto)
    (hr : c.aux.regionalizacion_productos = c'.aux.regionalizacion_productos) :
    (buildDoc data c now).indicadores = (buildDoc data c' now).indicadores ∧
    (buildDoc data c now).regionalizacion = (buildDoc data c' now).regionalizacion ∧
    (buildDoc data c now).indicadores.length =
      max c.aux.indicadores_producto.length 1 := by
  refine ⟨?_, ?_, ?_⟩
  · show indicadorPages c.aux = indicadorPages c'.aux
    unfold indicadorPages
    rw [hi, ho]
  · show regionalizacionSection c.aux = regionalizacionSection c'.aux
    unfold regionalizacionSection
    rw [hr]
  · show (indicadorPages c.aux).length = max c.aux.indicadores_producto.length 1
    unfold indicadorPages
    cases hl : c.aux.indicadores_producto with
    | nil =>
      cases c.aux.pagina_22_indicadores_producto <;> simp
    | cons a l =>
      simp [Nat.max_eq_left, Nat.succ_le_succ (Nat.zero_le _)]

/-- CLAIM C4 (witness).  Two contents differing only in their budget-tree
products render the same indicator pages and regionalization section;
the single indicator record gives `max 1 1 = 1` page. -/
theorem c4_counts_follow_records_witness :
    (buildDoc {} c4content "t").indicadores = (buildDoc {} c4contentB "t").indicadores ∧
    (buildDoc {} c4content "t").regionalizacion = (buildDoc {} c4contentB "t").regionalizacion ∧
    (buildDoc {} c4content "t").indicadores.length =
      max c4content.aux.indicadores_producto.length 1 :=
  c4_counts_follow_records {} c4content c4contentB "t" rfl rfl rfl

/-! ## Focalization subtotals -/

theorem pyAdd_zero (x : PyFloat) : pyAdd x (.num 0 0) = x := by
  cases x with
  | num m s => simp [pyAdd]
  | inf b => rfl
  | nan => rfl

/-- CLAIM C10.  Computing the category and policy subtotal values is total
(the model is a total function), and an entry whose value string fails
numeric parsing — after removing dots, turning commas into dots and
stripping dollar signs — contributes exactly `0.0`: removing it from its
category bucket leaves the category total unchanged, and likewise the
policy total built from the category totals. -/
theorem c10_malformed_value_contributes_zero (pre post : List FocEntry)
    (e : FocEntry) (h : focParse e = none) :
    catTotalVal (pre ++ e :: post) = catTotalVal (pre ++ post) ∧
    ∀ (catsL catsR : List (String × List FocEntry)) (cname : String),
      polTotalVal (catsL ++ (cname, pre ++ e :: post) :: catsR) =
        polTotalVal (catsL ++ (cname, pre ++ post) :: catsR) := by
  have hv : focVal e = .num 0 0 := by unfold focVal; rw [h]; rfl
  have h1 : catTotalVal (pre ++ e :: post) = catTotalVal (pre ++ post) := by
    unfold catTotalVal
    rw [List.foldl_append, List.foldl_append]
    simp only [List.foldl_cons, hv, pyAdd_zero]
  refine ⟨h1, ?_⟩
  intro catsL catsR cname
  unfold polTotalVal
  rw [List.foldl_append, List.foldl_append]
  simp only [List.foldl_cons, h1]

/-- CLAIM C10 (witness).  The unparsable value `garbage` contributes
nothing to its category total or to its policy total. -/
theorem c10_malformed_value_contributes_zero_witness :
    focParse ebadEntry = none ∧
    catTotalVal [egoodEntry, ebadEntry] = catTotalVal [egoodEntry] ∧
    polTotalVal [("X", [egoodEntry, ebadEntry])] = polTotalVal [("X", [egoodEntry])] :=
  ⟨by decide,
   (c10_malformed_value_contributes_zero [egoodEntry] [] ebadEntry (by decide)).1,
   (c10_malformed_value_contributes_zero [egoodEntry] [] ebadEntry (by decide)).2 [] [] "X"⟩

/-! ## Vertical merge spans -/

/-- CLAIM C9.  On the ledger `[(A,1), (A,1), (A,2), (B,1)]` the merge
logic marks only table rows 1–2 (ledger rows 0–1) for the policy
column and places a lone restart on table row 1 for the category
column: each group's final row is left out of its merge span, so the
policy span is not rows 0–2 and the category span is not rows 0–1 as
the claim requires. -/
theorem c9_merge_span_off_by_one :
    policySpans c9rows = [(1, 3), (4, 4)] ∧
    policyMarks c9rows = [(1, Mark.restart), (2, Mark.cont)] ∧
    categoryMarks c9rows = [(1, Mark.restart)] ∧
    policyMarks c9rows ≠ [(1, Mark.restart), (2, Mark.cont), (3, Mark.cont)] ∧
    categoryMarks c9rows ≠ [(1, Mark.restart), (2, Mark.cont)] := by
  refine ⟨by decide, by decide, by decide, by decide, by decide⟩

/-! ## Page-14 cost pass-through -/

theorem mem_cadenaProductos {c : CadenaContent} {obj : CadenaObjetivo}
    {p : CadenaProducto} (hp : p ∈ cadenaProductos c obj) :
    p ∈ obj.productos ∨ p ∈ c.productos ∨ c.producto = some p := by
  unfold cadenaProductos at hp
  split_ifs at hp with h1 h2
  · exact Or.inl hp
  · exact Or.inr (Or.inl hp)
  · cases hpp : c.producto with
    | some q =>
      rw [hpp] at hp
      simp only [List.mem_singleton] at hp
      exact Or.inr (Or.inr (by rw [hp]))
    | none =>
      rw [hpp] at hp
      simp at hp

theorem mem_cadenaObjetivos {data : SkeletonData} {c : CadenaContent}
    {obj : CadenaObjetivo} (h : obj ∈ cadenaObjetivos data c) :
    obj ∈ c.objetivos ∨ obj.productos = c.productos ∨
      c.objetivo_especifico = some obj := by
  unfold cadenaObjetivos at h
  split_ifs at h with h1 h2
  · exact Or.inl h
  · simp only [List.mem_singleton] at h
    right; left; rw [h]
  · cases he : c.objetivo_especifico with
    | some o =>
      rw [he] at h
      simp only [List.mem_singleton] at h
      right; right; rw [h]
    | none =>
      rw [he] at h
      simp at h

theorem mem_prodPool {data : SkeletonData} {c : CadenaContent}
    {obj : CadenaObjetivo} {p : CadenaProducto}
    (hobj : obj ∈ cadenaObjetivos data c) (hp : p ∈ cadenaProductos c obj) :
    p ∈ prodPool c := by
  unfold prodPool
  simp only [List.mem_append, List.mem_flatMap]
  rcases mem_cadenaProductos hp with h | h | h
  · rcases mem_cadenaObjetivos hobj with ho | ho | ho
    · exact Or.inl (Or.inl (Or.inl ⟨obj, ho, h⟩))
    · rw [ho] at h
      exact Or.inl (Or.inl (Or.inr h))
    · rw [ho]
      exact Or.inl (Or.inr (by simpa using h))
  · exact Or.inl (Or.inl (Or.inr h))
  · rw [h]
    exact Or.inr (by simp)

/-- CLAIM C1 (counterexample).  A budget tree whose product costs 60 while
its activities cost 30 and 29: `build` renders the costs verbatim — the
output activity costs still sum to 59, not 60, so invariant I1 does not
hold after `build`, no rescale happens and no adjustment is recorded. -/
theorem c1_counterexample :
    page14Render c1data c1cadena =
      [{ costo := "60",
         productos := [{ costo := "60", actividades := ["30", "29"] }] }] ∧
    sumPyF ["30", "29"] = PyFloat.num 59 0 ∧
    (pyFloat "60").getD .nan = PyFloat.num 60 0 ∧
    PyFloat.num 59 0 ≠ PyFloat.num 60 0 := by
  refine ⟨by rfl, by decide, by decide, by decide⟩

/-- CLAIM C1 (amended).  `build` performs no validation, rescaling or
`BudgetAdjustment` recording: every activity cost rendered on page 14 is
one of the activity cost strings supplied in the stage content,
unchanged — so the budget sums close in the output only if they closed
in the input. -/
theorem c1_costs_rendered_verbatim (data : SkeletonData) (c : CadenaContent)
    (ro : RenderedObjetivo) (rp : RenderedProducto) (s : String)
    (hro : ro ∈ page14Render data c) (hrp : rp ∈ ro.productos)
    (hs : s ∈ rp.actividades) :
    ∃ a, a ∈ actPool c ∧ s = (a.costo).getD "" := by
  unfold page14Render at hro
  obtain ⟨obj, hobj, hro⟩ := List.mem_map.mp hro
  subst hro
  unfold renderObjetivo at hrp
  simp only [List.mem_map] at hrp
  obtain ⟨p, hp, hrp⟩ := hrp
  subst hrp
  unfold renderProducto at hs
  simp only [List.mem_map] at hs
  obtain ⟨a, ha, hsa⟩ := hs
  refine ⟨a, ?_, hsa.symm⟩
  unfold actPool
  simp only [List.mem_append, List.mem_flatMap]
  unfold cadenaActividades at ha
  split_ifs at ha with hne
  · exact Or.inl ⟨p, mem_prodPool hobj hp, ha⟩
  · exact Or.inr ha

/-- CLAIM C1 (witness).  The pass-through fact applied to the concrete
tree of the counterexample: the rendered activity cost `30` is one of
the supplied activity cost strings. -/
theorem c1_costs_rendered_verbatim_witness :
    ∃ a, a ∈ actPool c1cadena ∧ "30" = (a.costo).getD "" :=
  c1_costs_rendered_verbatim c1data c1cadena
    { costo := "60", productos := [{ costo := "60", actividades := ["30", "29"] }] }
    { costo := "60", actividades := ["30", "29"] } "30"
    (by rw [show page14Render c1data c1cadena =
        [{ costo := "60",
           productos := [{ costo := "60", actividades := ["30", "29"] }] }] from rfl]
        exact List.mem_singleton.mpr rfl)
    (List.mem_singleton.mpr rfl)
    (by decide)

/-! ## Focalization grouping lemmas -/

theorem catLookupItems_addToCats (cats : List (String × List FocEntry))
    (c0 : String) (e : FocEntry) (c : String) :
    catLookupItems (addToCats cats c0 e) c =
      catLookupItems cats c ++ (if c0 = c then [e] else []) := by
  induction cats with
  | nil =>
    by_cases h : c0 = c
    · subst h; simp [addToCats, catLookupItems]
    · simp [addToCats, catLookupItems, h]
  | cons kv rest ih =>
    obtain ⟨c1, items⟩ := kv
    by_cases h1 : c1 = c0
    · subst h1
      by_cases h : c1 = c
      · subst h; simp [addToCats, catLookupItems]
      · simp [addToCats, catLookupItems, h]
    · by_cases h : c1 = c
      · subst h
        simp [addToCats, catLookupItems, h1,
          fun hh : c1 = c0 => h1 hh]
        intro hh
        exact absurd hh.symm h1
      · simp [addToCats, catLookupItems, h1, h, ih]

theorem itemsIn_addToPols (gd : List (String × List (String × List FocEntry)))
    (p0 c0 : String) (e : FocEntry) (p c : String) :
    itemsIn (addToPols gd p0 c0 e) p c =
      itemsIn gd p c ++ (if p0 = p ∧ c0 = c then [e] else []) := by
  induction gd with
  | nil =>
    by_cases hp : p0 = p
    · subst hp
      by_cases hc : c0 = c
      · subst hc; simp [addToPols, itemsIn, catLookupItems]
      · simp [addToPols, itemsIn, catLookupItems, hc]
    · simp [addToPols, itemsIn, hp]
  | cons kv rest ih =>
    obtain ⟨p1, cats⟩ := kv
    by_cases h1 : p1 = p0
    · subst h1
      by_cases hp : p1 = p
      · subst hp
        simp [addToPols, itemsIn, catLookupItems_addToCats]
      · simp [addToPols, itemsIn, hp, fun hh : p1 = p => hp hh]
    · by_cases hp : p1 = p
      · subst hp
        simp [addToPols, itemsIn, h1, fun hh : p1 = p0 => h1 hh]
        intro hh
        exact absurd hh.symm h1
      · simp [addToPols, itemsIn, h1, hp, ih]

theorem itemsIn_groupEntries (entries : List FocEntry) (p c : String) :
    itemsIn (groupEntries entries) p c =
      entries.filter (fun e => polKey e == p && catKey e == c) := by
  suffices h : ∀ gd, itemsIn
      (entries.foldl (fun gd e => addToPols gd (polKey e) (catKey e) e) gd) p c =
      itemsIn gd p c ++ entries.filter (fun e => polKey e == p && catKey e == c) by
    simpa [groupEntries, itemsIn] using h []
  induction entries with
  | nil => intro gd; simp
  | cons e rest ih =>
    intro gd
    simp only [List.foldl_cons, List.filter_cons]
    rw [ih]
    rw [itemsIn_addToPols]
    by_cases hp : polKey e = p <;> by_cases hc : catKey e = c <;>
      simp [hp, hc, List.append_assoc]

theorem addToCats_keys (cats : List (String × List FocEntry)) (c0 : String)
    (e : FocEntry) :
    (addToCats cats c0 e).map Prod.fst =
      if c0 ∈ cats.map Prod.fst then cats.map Prod.fst
      else cats.map Prod.fst ++ [c0] := by
  induction cats with
  | nil => simp [addToCats]
  | cons kv rest ih =>
    obtain ⟨c1, items⟩ := kv
    by_cases h : c1 = c0
    · subst h
      simp [addToCats]
    · simp only [addToCats, if_neg h, List.map_cons, ih, List.mem_cons]
      by_cases hm : c0 ∈ rest.map Prod.fst
      · simp [hm]
      · simp only [hm, if_false, or_false]
        rw [if_neg (fun heq : c0 = c1 => h heq.symm)]
        simp

theorem addToPols_keys (gd : List (String × List (String × List FocEntry)))
    (p0 c0 : String) (e : FocEntry) :
    (addToPols gd p0 c0 e).map Prod.fst =
      if p0 ∈ gd.map Prod.fst then gd.map Prod.fst
      else gd.map Prod.fst ++ [p0] := by
  induction gd with
  | nil => simp [addToPols]
  | cons kv rest ih =>
    obtain ⟨p1, cats⟩ := kv
    by_cases h : p1 = p0
    · subst h
      simp [addToPols]
    · simp only [addToPols, if_neg h, List.map_cons, ih, List.mem_cons]
      by_cases hm : p0 ∈ rest.map Prod.fst
      · simp [hm]
      · simp only [hm, if_false, or_false]
        rw [if_neg (fun heq : p0 = p1 => h heq.symm)]
        simp

theorem addToCats_nodup (cats : List (String × List FocEntry)) (c0 : String)
    (e : FocEntry) (h : (cats.map Prod.fst).Nodup) :
    ((addToCats cats c0 e).map Prod.fst).Nodup := by
  rw [addToCats_keys]
  by_cases hm : c0 ∈ cats.map Prod.fst
  · simpa [hm] using h
  · rw [if_neg hm, List.nodup_append]
    refine ⟨h, List.nodup_singleton _, ?_⟩
    simp only [List.disjoint_left]
    intro a ha hb
    simp only [List.mem_singleton] at hb
    subst hb
    exact hm ha

theorem addToPols_buckets_nodup
    (gd : List (String × List (String × List FocEntry))) (p0 c0 : String)
    (e : FocEntry) (h2 : ∀ kv ∈ gd, (kv.2.map Prod.fst).Nodup) :
    ∀ kv ∈ addToPols gd p0 c0 e, (kv.2.map Prod.fst).Nodup := by
  induction gd with
  | nil =>
    intro kv hkv
    simp only [addToPols, List.mem_singleton] at hkv
    rw [hkv]
    simp
  | cons kv0 rest ih =>
    obtain ⟨p1, cats⟩ := kv0
    intro kv hkv
    by_cases hp : p1 = p0
    · subst hp
      rw [show addToPols ((p1, cats) :: rest) p1 c0 e =
        (p1, addToCats cats c0 e) :: rest by simp [addToPols]] at hkv
      rcases List.mem_cons.mp hkv with heq | hm2
      · rw [heq]
        exact addToCats_nodup cats c0 e (h2 (p1, cats) (by simp))
      · exact h2 kv (List.mem_cons_of_mem _ hm2)
    · rw [show addToPols ((p1, cats) :: rest) p0 c0 e =
        (p1, cats) :: addToPols rest p0 c0 e by simp [addToPols, hp]] at hkv
      rcases List.mem_cons.mp hkv with heq | hm2
      · exact h2 kv (by rw [heq]; simp)
      · exact ih (fun k hk => h2 k (List.mem_cons_of_mem _ hk)) kv hm2

theorem addToPols_preserves_nodup
    (gd : List (String × List (String × List FocEntry))) (p0 c0 : String)
    (e : FocEntry) (h : groupedNodup gd) :
    groupedNodup (addToPols gd p0 c0 e) := by
  obtain ⟨h1, h2⟩ := h
  refine ⟨?_, addToPols_buckets_nodup gd p0 c0 e h2⟩
  rw [addToPols_keys]
  by_cases hm : p0 ∈ gd.map Prod.fst
  · simpa [hm] using h1
  · rw [if_neg hm, List.nodup_append]
    refine ⟨h1, List.nodup_singleton _, ?_⟩
    simp only [List.disjoint_left]
    intro a ha hb
    simp only [List.mem_singleton] at hb
    subst hb
    exact hm ha

theorem addToCats_ne_nil (cats : List (String × List FocEntry)) (c0 : String)
    (e : FocEntry) : addToCats cats c0 e ≠ [] := by
  cases cats with
  | nil => simp [addToCats]
  | cons kv rest =>
    obtain ⟨c1, items⟩ := kv
    by_cases h : c1 = c0 <;> simp [addToCats, h]

theorem addToCats_nonempty (cats : List (String × List FocEntry)) (c0 : String)
    (e : FocEntry) (h : ∀ ckv ∈ cats, ckv.2 ≠ []) :
    ∀ ckv ∈ addToCats cats c0 e, ckv.2 ≠ [] := by
  induction cats with
  | nil =>
    intro ckv hckv
    simp only [addToCats, List.mem_singleton] at hckv
    rw [hckv]
    simp
  | cons kv0 rest ih =>
    obtain ⟨c1, items⟩ := kv0
    intro ckv hckv
    by_cases hc : c1 = c0
    · subst hc
      rw [show addToCats ((c1, items) :: rest) c1 e =
        (c1, items ++ [e]) :: rest by simp [addToCats]] at hckv
      rcases List.mem_cons.mp hckv with heq | hm2
      · rw [heq]; simp
      · exact h ckv (List.mem_cons_of_mem _ hm2)
    · rw [show addToCats ((c1, items) :: rest) c0 e =
        (c1, items) :: addToCats rest c0 e by simp [addToCats, hc]] at hckv
      rcases List.mem_cons.mp hckv with heq | hm2
      · exact h ckv (by rw [heq]; simp)
      · exact ih (fun k hk => h k (List.mem_cons_of_mem _ hk)) ckv hm2

theorem addToPols_preserves_nonempty
    (gd : List (String × List (String × List FocEntry))) (p0 c0 : String)
    (e : FocEntry) (h : groupedNonempty gd) :
    groupedNonempty (addToPols gd p0 c0 e) := by
  induction gd with
  | nil =>
    intro kv hkv
    simp only [addToPols, List.mem_singleton] at hkv
    rw [hkv]
    refine ⟨by simp, ?_⟩
    intro ckv hc
    simp only [List.mem_singleton] at hc
    rw [hc]
    simp
  | cons kv0 rest ih =>
    obtain ⟨p1, cats⟩ := kv0
    intro kv hkv
    by_cases hp : p1 = p0
    · subst hp
      rw [show addToPols ((p1, cats) :: rest) p1 c0 e =
        (p1, addToCats cats c0 e) :: rest by simp [addToPols]] at hkv
      rcases List.mem_cons.mp hkv with heq | hm2
      · rw [heq]
        refine ⟨addToCats_ne_nil cats c0 e, ?_⟩
        exact addToCats_nonempty cats c0 e
          (fun ckv hc => (h (p1, cats) (by simp)).2 ckv hc)
      · exact h kv (List.mem_cons_of_mem _ hm2)
    · rw [show addToPols ((p1, cats) :: rest) p0 c0 e =
        (p1, cats) :: addToPols rest p0 c0 e by simp [addToPols, hp]] at hkv
      rcases List.mem_cons.mp hkv with heq | hm2
      · exact h kv (by rw [heq]; simp)
      · exact ih (fun k hk => h k (List.mem_cons_of_mem _ hk)) kv hm2

theorem groupEntries_invariants (entries : List FocEntry) :
    groupedNodup (groupEntries entries) ∧ groupedNonempty (groupEntries entries) := by
  suffices h : ∀ gd, groupedNodup gd → groupedNonempty gd →
      groupedNodup (entries.foldl
        (fun gd e => addToPols gd (polKey e) (catKey e) e) gd) ∧
      groupedNonempty (entries.foldl
        (fun gd e => addToPols gd (polKey e) (catKey e) e) gd) by
    refine h [] ⟨by simp, by intro kv hkv; simp at hkv⟩ ?_
    intro kv hkv
    simp at hkv
  induction entries with
  | nil => exact fun gd h1 h2 => ⟨h1, h2⟩
  | cons e rest ih =>
    intro gd h1 h2
    simp only [List.foldl_cons]
    exact ih _ (addToPols_preserves_nodup _ _ _ _ h1)
      (addToPols_preserves_nonempty _ _ _ _ h2)

/-! ## Focalization row-filter lemmas -/

theorem isItemOf_itemRow (p c p0 c0 : String) (e : FocEntry) :
    isItemOf p c (itemRow p0 c0 e) = (p0 == p && c0 == c) := by
  simp [isItemOf, itemRow]

theorem filter_catBlock (p c p0 c0 : String) (items : List FocEntry) :
    (catBlock p0 (c0, items)).filter (isItemOf p c) =
      if p0 = p ∧ c0 = c then items.map (itemRow p0 c0) else [] := by
  unfold catBlock
  rw [List.filter_append]
  have hct : List.filter (isItemOf p c) [catTotalRow p0 c0 items] = [] := by
    simp [isItemOf, catTotalRow]
  rw [hct, List.append_nil]
  by_cases hp : p0 = p
  · by_cases hc : c0 = c
    · rw [if_pos ⟨hp, hc⟩]
      rw [List.filter_eq_self.mpr]
      intro r hr
      obtain ⟨e, _, rfl⟩ := List.mem_map.mp hr
      simp [isItemOf_itemRow, hp, hc]
    · rw [if_neg (fun hh => hc hh.2)]
      rw [List.filter_eq_nil_iff.mpr]
      intro r hr
      obtain ⟨e, _, rfl⟩ := List.mem_map.mp hr
      simp [isItemOf_itemRow, hc]
  · rw [if_neg (fun hh => hp hh.1)]
    rw [List.filter_eq_nil_iff.mpr]
    intro r hr
    obtain ⟨e, _, rfl⟩ := List.mem_map.mp hr
    simp [isItemOf_itemRow, hp]

theorem filter_catsRows_not_mem (p c p0 : String)
    (cats : List (String × List FocEntry)) (h : c ∉ cats.map Prod.fst) :
    (cats.flatMap (catBlock p0)).filter (isItemOf p c) = [] := by
  induction cats with
  | nil => rfl
  | cons kv rest ih =>
    obtain ⟨c0, items⟩ := kv
    simp only [List.map_cons, List.mem_cons] at h
    push_neg at h
    rw [List.flatMap_cons, List.filter_append, filter_catBlock,
      if_neg (fun hh => h.1 hh.2.symm), List.nil_append]
    exact ih h.2

theorem filter_catsRows (p c : String) (cats : List (String × List FocEntry))
    (hnd : (cats.map Prod.fst).Nodup) :
    (cats.flatMap (catBlock p)).filter (isItemOf p c) =
      (catLookupItems cats c).map (itemRow p c) := by
  induction cats with
  | nil => simp [catLookupItems]
  | cons kv rest ih =>
    obtain ⟨c0, items⟩ := kv
    simp only [List.map_cons, List.nodup_cons] at hnd
    rw [List.flatMap_cons, List.filter_append, filter_catBlock]
    by_cases hc : c0 = c
    · subst hc
      rw [if_pos ⟨rfl, rfl⟩, filter_catsRows_not_mem p c0 p rest hnd.1,
        List.append_nil]
      simp [catLookupItems]
    · rw [if_neg (fun hh => hc hh.2), List.nil_append, ih hnd.2]
      simp [catLookupItems, hc]

theorem filter_catsRows_ne (p c p0 : String)
    (cats : List (String × List FocEntry)) (h : p0 ≠ p) :
    (cats.flatMap (catBlock p0)).filter (isItemOf p c) = [] := by
  induction cats with
  | nil => rfl
  | cons kv rest ih =>
    obtain ⟨c0, items⟩ := kv
    rw [List.flatMap_cons, List.filter_append, filter_catBlock,
      if_neg (fun hh => h hh.1), List.nil_append]
    exact ih

theorem filter_polBlock_ne (p c p0 : String)
    (cats : List (String × List FocEntry)) (h : p0 ≠ p) :
    (polBlock (p0, cats)).filter (isItemOf p c) = [] := by
  unfold polBlock
  rw [List.filter_append]
  have h2 : List.filter (isItemOf p c) [polTotalRow p0 cats] = [] := by
    simp [isItemOf, polTotalRow]
  rw [h2, List.append_nil]
  exact filter_catsRows_ne p c p0 cats h

theorem filter_rows_not_mem (p c : String)
    (gd : List (String × List (String × List FocEntry)))
    (h : p ∉ gd.map Prod.fst) :
    (gd.flatMap polBlock).filter (isItemOf p c) = [] := by
  induction gd with
  | nil => rfl
  | cons kv rest ih =>
    obtain ⟨p0, cats⟩ := kv
    simp only [List.map_cons, List.mem_cons] at h
    push_neg at h
    rw [List.flatMap_cons, List.filter_append,
      filter_polBlock_ne p c p0 cats (fun hh => h.1 hh.symm), List.nil_append]
    exact ih h.2

theorem filter_rowsOfGrouped (p c : String)
    (gd : List (String × List (String × List FocEntry)))
    (hnd : groupedNodup gd) :
    (gd.flatMap polBlock).filter (isItemOf p c) =
      (itemsIn gd p c).map (itemRow p c) := by
  induction gd with
  | nil => simp [itemsIn]
  | cons kv rest ih =>
    obtain ⟨p0, cats⟩ := kv
    obtain ⟨h1, h2⟩ := hnd
    simp only [List.map_cons, List.nodup_cons] at h1
    rw [List.flatMap_cons, List.filter_append]
    by_cases hp : p0 = p
    · subst hp
      have hpb : (polBlock (p0, cats)).filter (isItemOf p0 c) =
          (catLookupItems cats c).map (itemRow p0 c) := by
        unfold polBlock
        rw [List.filter_append]
        have hpt : List.filter (isItemOf p0 c) [polTotalRow p0 cats] = [] := by
          simp [isItemOf, polTotalRow]
        rw [hpt, List.append_nil]
        exact filter_catsRows p0 c cats (h2 (p0, cats) (by simp))
      rw [hpb, filter_rows_not_mem p0 c rest h1.1, List.append_nil]
      simp [itemsIn]
    · rw [filter_polBlock_ne p c p0 cats hp, List.nil_append]
      rw [ih ⟨h1.2, fun kv hkv => h2 kv (List.mem_cons_of_mem _ hkv)⟩]
      simp [itemsIn, hp]

/-! ## Focalization row-adjacency lemmas -/

theorem mem_of_getLast?' {α : Type} {l : List α} {x : α}
    (h : x ∈ l.getLast?) : x ∈ l := by
  obtain ⟨hne, heq⟩ := List.mem_getLast?_eq_getLast h
  rw [heq]
  exact List.getLast_mem hne

theorem catBlock_ne_nil (p0 : String) (kv : String × List FocEntry) :
    catBlock p0 kv ≠ [] := by
  unfold catBlock
  intro hcontra
  rcases List.append_eq_nil.mp hcontra with ⟨_, h2⟩
  simp at h2

theorem catsRows_ne_nil (p0 : String) (cats : List (String × List FocEntry))
    (h : cats ≠ []) : cats.flatMap (catBlock p0) ≠ [] := by
  cases cats with
  | nil => exact absurd rfl h
  | cons kv t =>
    rw [List.flatMap_cons]
    intro hcontra
    rcases List.append_eq_nil.mp hcontra with ⟨h1, _⟩
    exact catBlock_ne_nil p0 kv h1

theorem polBlock_ne_nil (kv : String × List (String × List FocEntry)) :
    polBlock kv ≠ [] := by
  unfold polBlock
  intro hcontra
  rcases List.append_eq_nil.mp hcontra with ⟨_, h2⟩
  simp at h2

theorem chain_of_items (l : List Row) (h : ∀ r ∈ l, r.rtype = RowType.item) :
    List.Chain' rowPairOk l := by
  induction l with
  | nil => exact List.chain'_nil
  | cons a rest ih =>
    cases rest with
    | nil => exact List.chain'_singleton a
    | cons b t =>
      rw [List.chain'_cons]
      refine ⟨?_, ih (fun r hr => h r (List.mem_cons_of_mem a hr))⟩
      have hb : b.rtype = RowType.item := h b (by simp)
      simp [rowPairOk, hb]

theorem chain_catBlock (p0 c0 : String) (items : List FocEntry)
    (hne : items ≠ []) :
    List.Chain' rowPairOk (catBlock p0 (c0, items)) ∧
    (∀ r ∈ (catBlock p0 (c0, items)).head?, r.rtype = RowType.item) ∧
    (catBlock p0 (c0, items)).getLast? = some (catTotalRow p0 c0 items) := by
  refine ⟨?_, ?_, ?_⟩
  · unfold catBlock
    rw [List.chain'_append]
    refine ⟨chain_of_items _ ?_, List.chain'_singleton _, ?_⟩
    · intro r hr
      obtain ⟨e, _, rfl⟩ := List.mem_map.mp hr
      rfl
    · intro x hx y hy
      simp only [List.head?_cons, Option.mem_def, Option.some.injEq] at hy
      subst hy
      have hx2 : x ∈ items.map (itemRow p0 c0) := mem_of_getLast?' hx
      obtain ⟨e, _, rfl⟩ := List.mem_map.mp hx2
      exact ⟨rfl, rfl, rfl⟩
  · unfold catBlock
    cases items with
    | nil => exact absurd rfl hne
    | cons a t =>
      intro r hr
      simp only [List.map_cons, List.cons_append, List.head?_cons,
        Option.mem_def, Option.some.injEq] at hr
      subst hr
      rfl
  · unfold catBlock
    exact List.getLast?_concat _

theorem chain_catsRows (p0 : String) (cats : List (String × List FocEntry))
    (hne : ∀ ckv ∈ cats, ckv.2 ≠ []) (hcats : cats ≠ []) :
    List.Chain' rowPairOk (cats.flatMap (catBlock p0)) ∧
    (∀ r ∈ (cats.flatMap (catBlock p0)).head?, r.rtype = RowType.item) ∧
    (∀ r ∈ (cats.flatMap (catBlock p0)).getLast?,
      r.rtype = RowType.totalCat ∧ r.policy = p0) := by
  induction cats with
  | nil => exact absurd rfl hcats
  | cons kv rest ih =>
    obtain ⟨c0, items⟩ := kv
    have hitems : items ≠ [] := hne (c0, items) (by simp)
    obtain ⟨hc1, hh1, hl1⟩ := chain_catBlock p0 c0 items hitems
    by_cases hrest : rest = []
    · subst hrest
      simp only [List.flatMap_cons, List.flatMap_nil, List.append_nil]
      refine ⟨hc1, hh1, ?_⟩
      intro r hr
      rw [hl1] at hr
      simp only [Option.mem_def, Option.some.injEq] at hr
      subst hr
      exact ⟨rfl, rfl⟩
    · obtain ⟨hc2, hh2, hl2⟩ :=
        ih (fun k hk => hne k (List.mem_cons_of_mem _ hk)) hrest
      rw [List.flatMap_cons]
      refine ⟨?_, ?_, ?_⟩
      · rw [List.chain'_append]
        refine ⟨hc1, hc2, ?_⟩
        intro x hx y hy
        have hy2 := hh2 y hy
        simp [rowPairOk, hy2]
      · intro r hr
        rw [List.head?_append_of_ne_nil _ (catBlock_ne_nil p0 (c0, items))] at hr
        exact hh1 r hr
      · intro r hr
        rw [List.getLast?_append_of_ne_nil _ (catsRows_ne_nil p0 rest hrest)] at hr
        exact hl2 r hr

theorem chain_polBlock (p0 : String) (cats : List (String × List FocEntry))
    (hcats : cats ≠ []) (hne : ∀ ckv ∈ cats, ckv.2 ≠ []) :
    List.Chain' rowPairOk (polBlock (p0, cats)) ∧
    (∀ r ∈ (polBlock (p0, cats)).head?, r.rtype = RowType.item) := by
  obtain ⟨hc, hh, hl⟩ := chain_catsRows p0 cats hne hcats
  unfold polBlock
  constructor
  · rw [List.chain'_append]
    refine ⟨hc, List.chain'_singleton _, ?_⟩
    intro x hx y hy
    simp only [List.head?_cons, Option.mem_def, Option.some.injEq] at hy
    subst hy
    obtain ⟨hx1, hx2⟩ := hl x hx
    exact ⟨hx1, hx2⟩
  · intro r hr
    rw [List.head?_append_of_ne_nil _ (catsRows_ne_nil p0 cats hcats)] at hr
    exact hh r hr

theorem chain_grouped (gd : List (String × List (String × List FocEntry)))
    (hne : groupedNonempty gd) :
    List.Chain' rowPairOk (gd.flatMap polBlock) ∧
    (∀ r ∈ (gd.flatMap polBlock).head?, r.rtype = RowType.item) := by
  induction gd with
  | nil =>
    refine ⟨List.chain'_nil, ?_⟩
    intro r hr
    simp at hr
  | cons kv rest ih =>
    obtain ⟨p0, cats⟩ := kv
    have hk := hne (p0, cats) (by simp)
    obtain ⟨hc1, hh1⟩ := chain_polBlock p0 cats hk.1 hk.2
    obtain ⟨hc2, hh2⟩ := ih (fun k hk2 => hne k (List.mem_cons_of_mem _ hk2))
    rw [List.flatMap_cons]
    constructor
    · rw [List.chain'_append]
      refine ⟨hc1, hc2, ?_⟩
      intro x hx y hy
      have hy2 := hh2 y hy
      simp [rowPairOk, hy2]
    · intro r hr
      rw [List.head?_append_of_ne_nil _ (polBlock_ne_nil (p0, cats))] at hr
      exact hh1 r hr

/-- CLAIM C8 (counterexample).  Interleaved entries A, B, A: the rendered
item rows come out in order A, A, B — the second entry is moved past the
third, so build does reorder the input entries. -/
theorem c8_counterexample :
    ((rowsToRender c8entries).filter (fun r => r.rtype == RowType.item)).map
        (fun r => r.subcategory) = ["s1", "s3", "s2"] ∧
    (["s1", "s3", "s2"] : List String) ≠ ["s1", "s2", "s3"] := by
  refine ⟨by decide, by decide⟩

/-- CLAIM C8 (amended).  Grouping preserves input order only within each
(policy, category) bucket: the item rows of bucket `(p, c)` are exactly
the input entries of that bucket in input order; and every
`Total Categoría` row directly follows an item row of its own bucket
while every policy-total row directly follows a category-total row of
its own policy (with an item row first whenever any row exists). -/
theorem c8_grouped_order (entries : List FocEntry) (p c : String) :
    (rowsToRender entries).filter (isItemOf p c) =
      (entries.filter (fun e => polKey e == p && catKey e == c)).map
        (itemRow p c) ∧
    List.Chain' rowPairOk (rowsToRender entries) ∧
    (∀ r ∈ (rowsToRender entries).head?, r.rtype = RowType.item) := by
  obtain ⟨hnd, hne⟩ := groupEntries_invariants entries
  refine ⟨?_, (chain_grouped _ hne).1, (chain_grouped _ hne).2⟩
  unfold rowsToRender
  rw [filter_rowsOfGrouped p c _ hnd, itemsIn_groupEntries]

/-- CLAIM C8 (witness).  The amended grouping facts evaluated on the
interleaved three-entry ledger. -/
theorem c8_grouped_order_witness :
    (rowsToRender c8entries).filter (isItemOf "A" "X") =
      (c8entries.filter (fun e => polKey e == "A" && catKey e == "X")).map
        (itemRow "A" "X") ∧
    List.Chain' rowPairOk (rowsToRender c8entries) ∧
    (∀ r ∈ (rowsToRender c8entries).head?, r.rtype = RowType.item) :=
  c8_grouped_order c8entries "A" "X"
